import Mathlib

/-
Verification of the grpc-http-proxy service registry (source/records.go,
source/static.go) and of the dynamic gRPC client pipeline (backend/client.go).

The Go maps `map[string]versions` and `versions = map[string][]*url.URL` are
embedded as association lists with the usual lookup / assign / delete
operations; Go map keys are unique, which the association-list operations
respect (assignment replaces the existing binding, delete removes it).
Backend addresses (`*url.URL`) are compared by the source only through their
canonical string form (`e.String() != u.String()` in RemoveRecord), so an
address is modelled by that canonical string.
-/

namespace Proxy

/-- Backend address, modelled by its canonical string form
(the source compares addresses only via url.URL.String). -/
abbrev Url := String

/-- The inner Go map: version label to list of backend addresses
(`type versions map[string][]*url.URL`). -/
abbrev VersionsMap := List (String × List Url)

/-- The outer Go map held by Records: service name to versions
(`m map[string]versions`). -/
abbrev RecordsMap := List (String × VersionsMap)

/-- Go map read `m[k]` (with ok-flag given by Option). -/
def alookup (k : String) : List (String × α) → Option α
  | [] => none
  | (k1, v1) :: rest => if k1 = k then some v1 else alookup k rest

/-- Go map assignment `m[k] = v`: replaces the binding of `k`, or adds one. -/
def aupsert (k : String) (v : α) : List (String × α) → List (String × α)
  | [] => [(k, v)]
  | (k1, v1) :: rest => if k1 = k then (k, v) :: rest else (k1, v1) :: aupsert k v rest

/-- Go map `delete(m, k)`. -/
def aerase (k : String) : List (String × α) → List (String × α)
  | [] => []
  | (k1, v1) :: rest => if k1 = k then aerase k rest else (k1, v1) :: aerase k rest

/-- Error codes of the errors package used by records.go. -/
inductive ErrorCode where
  | ServiceUnresolvable
  | VersionNotSpecified
  | VersionUndecidable
deriving DecidableEq, Repr

/-- errors.ProxyError: a structured error with a code and a message. -/
structure ProxyError where
  code : ErrorCode
  message : String
deriving DecidableEq, Repr

/-- The ServiceUnresolvable error built for an unknown service. -/
def serviceUnresolvableErr (svc : String) : ProxyError :=
  ⟨.ServiceUnresolvable, "The gRPC service " ++ svc ++ " is unresolvable"⟩

/-- The ServiceUnresolvable error built for an unknown version of a known
service. -/
def versionNotFoundErr (svc version : String) : ProxyError :=
  ⟨.ServiceUnresolvable,
    "Version " ++ version ++ " of the gRPC service " ++ svc ++ " is unresolvable"⟩

/-- The VersionNotSpecified error. -/
def versionNotSpecifiedErr (svc : String) : ProxyError :=
  ⟨.VersionNotSpecified,
    "There are multiple version of the gRPC service " ++ svc ++
      " available. You must specify one"⟩

/-- The VersionUndecidable error. -/
def versionUndecidableErr (svc : String) : ProxyError :=
  ⟨.VersionUndecidable,
    "Multiple possible backends found for the gRPC service " ++ svc ++
      ". Add annotations to distinguish versions"⟩

/-- NewRecords creates an empty mapping. -/
def NewRecords : RecordsMap := []

/-- ClearRecords replaces the whole mapping with an empty one. -/
def ClearRecords (_ : RecordsMap) : RecordsMap := []

/-- Records.GetRecord (source/records.go).  Returns the Go pair
(ServiceURL, error): exactly one of the two components is non-nil.
The Go branch `len(vs) != 1` and later `len(entries) != 1` followed by
`entries[0]` are rendered as a singleton-list match, which is the same test.
When `version == ""` and the service has exactly one version the Go `for`
loop always returns inside its single iteration, so the fall-through to
`vs[version]` happens only for a non-empty version. -/
def GetRecord (m : RecordsMap) (svc version : String) :
    Option Url × Option ProxyError :=
  match alookup svc m with
  | none => (none, some (serviceUnresolvableErr svc))
  | some vs =>
    if version = "" then
      match vs with
      | [(_, entries)] =>
        match entries with
        | [e] => (some e, none)
        | _ => (none, some (versionUndecidableErr svc))
      | _ => (none, some (versionNotSpecifiedErr svc))
    else
      match alookup version vs with
      | none => (none, some (versionNotFoundErr svc version))
      | some entries =>
        match entries with
        | [e] => (some e, none)
        | _ => (none, some (versionUndecidableErr svc))

/-- Records.SetRecord: creates the service and version entries when absent
(the Go code materialises `r.m[svc]` and `r.m[svc][version]`), appends the
address, and returns true. -/
def SetRecord (m : RecordsMap) (svc version : String) (u : Url) :
    RecordsMap × Bool :=
  let vs := (alookup svc m).getD []
  let entries := (alookup version vs).getD []
  (aupsert svc (aupsert version (entries ++ [u]) vs) m, true)

/-- The entry filter inside Records.RemoveRecord: keeps exactly the entries
whose canonical string differs from the given address
(`if e.String() != u.String() { newEntries = append(newEntries, e) }`). -/
def removeAddr (u : Url) : List Url → List Url
  | [] => []
  | e :: rest => if e = u then removeAddr u rest else e :: removeAddr u rest

/-- Records.RemoveRecord: no-op when the service or version is unknown;
otherwise filters out the address, writes the filtered list back, deletes
the version entry when it became empty, and deletes the service entry when
no versions remain. -/
def RemoveRecord (m : RecordsMap) (svc version : String) (u : Url) :
    RecordsMap :=
  match alookup svc m with
  | none => m
  | some vs =>
    match alookup version vs with
    | none => m
    | some entries =>
      let newEntries := removeAddr u entries
      let vs1 := aupsert version newEntries vs
      let vs2 := if newEntries = [] then aerase version vs1 else vs1
      let m1 := aupsert svc vs2 m
      if vs2.length = 0 then aerase svc m1 else m1

/-- Static.Resolve (source/static.go): delegates to GetRecord, logging and
passing any error through, and returns (nil, err) or (record, nil). -/
def Resolve (m : RecordsMap) (svc version : String) :
    Option Url × Option ProxyError :=
  match GetRecord m svc version with
  | (_, some e) => (none, some e)
  | (u, none) => (u, none)

/-- The versions map of a service as read through the Go map (empty when the
service is absent). -/
def versionsAt (m : RecordsMap) (svc : String) : VersionsMap :=
  (alookup svc m).getD []

/-- The address list of a (service, version) pair as read through the Go
maps (empty when absent). -/
def entriesAt (m : RecordsMap) (svc version : String) : List Url :=
  (alookup version (versionsAt m svc)).getD []

/-- The address list of the version GetRecord resolves: the given version
when one is supplied, otherwise the single version of the service (the
branch GetRecord takes when `version == ""` and the service has exactly one
version). -/
def ResolvedEntries (version : String) (vs : VersionsMap) (es : List Url) : Prop :=
  (version ≠ "" ∧ alookup version vs = some es) ∨
  (version = "" ∧ ∃ w, vs = [(w, es)])

/-- The inner loop of NewRecordsFromYAML over one service's version map:
parses each address with the given URL parser and feeds it to SetRecord,
aborting on the first parse error.  (Go iterates the decoded map in
unspecified order; the claims proved below do not depend on the order.) -/
def loadVersions (pu : String → Except ε Url) (r : RecordsMap)
    (service : String) : List (String × String) → Except ε RecordsMap
  | [] => .ok r
  | (version, rawurl) :: rest =>
    match pu rawurl with
    | .error e => .error e
    | .ok u => loadVersions pu (SetRecord r service version u).1 service rest

/-- The outer loop of NewRecordsFromYAML over the decoded two-level
mapping. -/
def loadServices (pu : String → Except ε Url) (r : RecordsMap) :
    List (String × List (String × String)) → Except ε RecordsMap
  | [] => .ok r
  | (service, vers) :: rest =>
    match loadVersions pu r service vers with
    | .error e => .error e
    | .ok r1 => loadServices pu r1 rest

/-- NewRecordsFromYAML (source/records.go): `decoded` is the combined result
of os.Open plus yaml decoding (an error aborts the whole load), and `pu`
models url.Parse.  Starts from NewRecords and loads every decoded entry,
returning the first error without any partial registry. -/
def NewRecordsFromYAML (decoded : Except ε (List (String × List (String × String))))
    (pu : String → Except ε Url) : Except ε RecordsMap :=
  match decoded with
  | .error e => .error e
  | .ok raw => loadServices pu NewRecords raw

/-- NewStatic (source/static.go): always constructs a Static; when
NewRecordsFromYAML fails it logs and falls back to NewRecords (the empty
registry).  This gives the records held by the constructed Static. -/
def NewStaticRecords (loaded : Except ε RecordsMap) : RecordsMap :=
  match loaded with
  | .error _ => NewRecords
  | .ok r => r

/-- Registry states reachable from NewRecords through the mutation API
(SetRecord, RemoveRecord, ClearRecords). -/
inductive Reachable : RecordsMap → Prop where
  | init : Reachable NewRecords
  | set (s v : String) (u : Url) {m : RecordsMap} (h : Reachable m) :
      Reachable (SetRecord m s v u).1
  | remove (s v : String) (u : Url) {m : RecordsMap} (h : Reachable m) :
      Reachable (RemoveRecord m s v u)
  | clear {m : RecordsMap} (h : Reachable m) : Reachable (ClearRecords m)

/-- The pruning invariant: every service present has a non-empty versions
map, and every version present has a non-empty address list. -/
def PrunedWF (m : RecordsMap) : Prop :=
  ∀ p ∈ m, p.2 ≠ [] ∧ ∀ q ∈ p.2, q.2 ≠ []

instance (m : RecordsMap) : Decidable (PrunedWF m) := by
  unfold PrunedWF
  infer_instance

/-
The dynamic client of backend/client.go.  The effectful collaborators
(dialing, the reflection client, the message codec, the stub) live behind
an environment record with one field per Go operation; the Go pattern
`x, err := f(...)` is a pair whose second component is the error, and both
components are assigned by the caller exactly as in the source.  Pointer
values (including nil pointers) are abstracted into the type parameters;
the context argument carries no information used by client.go itself and
is dropped. -/

/-- The collaborators used by backend/client.go, one field per operation,
plus the zero values NewClient installs (&clientConn\x7b\x7d and friends). -/
structure BEnv (Conn ReflC Sd Md Typ Msg Stub Bytes Err Tgt Meta : Type) where
  newClientConn : Tgt → Conn × Option Err
  close : Conn → Option Err
  mkReflectionClient : Conn → ReflC
  reflResolveService : ReflC → String → Sd × Option Err
  findMethodByName : Sd → String → Md × Option Err
  getInputType : Md → Typ
  getOutputType : Md → Typ
  newMessage : Typ → Msg
  unmarshalJSON : Msg → Bytes → Msg × Option Err
  marshalJSON : Msg → Option Bytes × Option Err
  mkStub : Conn → Stub
  stubInvokeRPC : Stub → Md → Msg → Meta → Msg × Option Err
  emptyConn : Conn
  emptyReflC : ReflC
  emptySd : Sd
  emptyMd : Md
  emptyMsg : Msg
  emptyStub : Stub

/-- The Client struct of backend/client.go: the aggregated per-request
state, with the sticky error field `err`. -/
structure ClientSt (Conn ReflC Sd Md Msg Stub Err : Type) where
  clientConn : Conn
  reflectionClient : ReflC
  serviceDescriptor : Sd
  methodDescriptor : Md
  inputMessage : Msg
  outputMessage : Msg
  stub : Stub
  err : Option Err

variable {Conn ReflC Sd Md Typ Msg Stub Bytes Err Tgt Meta : Type}

/-- NewClient: fresh client with zero-valued collaborators and no error. -/
def NewClient (env : BEnv Conn ReflC Sd Md Typ Msg Stub Bytes Err Tgt Meta) :
    ClientSt Conn ReflC Sd Md Msg Stub Err :=
  ⟨env.emptyConn, env.emptyReflC, env.emptySd, env.emptyMd,
    env.emptyMsg, env.emptyMsg, env.emptyStub, none⟩

/-- Client.Connect: guarded by the sticky error; assigns both the
connection and the error returned by the dial. -/
def Connect (env : BEnv Conn ReflC Sd Md Typ Msg Stub Bytes Err Tgt Meta)
    (c : ClientSt Conn ReflC Sd Md Msg Stub Err) (t : Tgt) :
    ClientSt Conn ReflC Sd Md Msg Stub Err :=
  if c.err.isSome then c
  else
    let r := env.newClientConn t
    { c with clientConn := r.1, err := r.2 }

/-- Client.CloseConn (client.go:56): guarded by the sticky error exactly
like every other stage; only when no error is set does it close the
connection and record the close result. -/
def CloseConn (env : BEnv Conn ReflC Sd Md Typ Msg Stub Bytes Err Tgt Meta)
    (c : ClientSt Conn ReflC Sd Md Msg Stub Err) :
    ClientSt Conn ReflC Sd Md Msg Stub Err :=
  if c.err.isSome then c
  else { c with err := env.close c.clientConn }

/-- Client.newReflectionClient. -/
def newReflectionClientS (env : BEnv Conn ReflC Sd Md Typ Msg Stub Bytes Err Tgt Meta)
    (c : ClientSt Conn ReflC Sd Md Msg Stub Err) :
    ClientSt Conn ReflC Sd Md Msg Stub Err :=
  if c.err.isSome then c
  else { c with reflectionClient := env.mkReflectionClient c.clientConn }

/-- Client.resolveService: builds the reflection client first, then
resolves the service, assigning both descriptor and error. -/
def resolveServiceS (env : BEnv Conn ReflC Sd Md Typ Msg Stub Bytes Err Tgt Meta)
    (c : ClientSt Conn ReflC Sd Md Msg Stub Err) (serviceName : String) :
    ClientSt Conn ReflC Sd Md Msg Stub Err :=
  let c1 := newReflectionClientS env c
  if c1.err.isSome then c1
  else
    let r := env.reflResolveService c1.reflectionClient serviceName
    { c1 with err := r.2, serviceDescriptor := r.1 }

/-- Client.findMethodByName. -/
def findMethodByNameS (env : BEnv Conn ReflC Sd Md Typ Msg Stub Bytes Err Tgt Meta)
    (c : ClientSt Conn ReflC Sd Md Msg Stub Err) (name : String) :
    ClientSt Conn ReflC Sd Md Msg Stub Err :=
  if c.err.isSome then c
  else
    let r := env.findMethodByName c.serviceDescriptor name
    { c with err := r.2, methodDescriptor := r.1 }

/-- Client.loadDescriptors: resolves service and method, then allocates the
input and output messages from the (possibly stale) method descriptor; the
message allocations are not guarded by the inner stage errors, exactly as
in the source. -/
def loadDescriptorsS (env : BEnv Conn ReflC Sd Md Typ Msg Stub Bytes Err Tgt Meta)
    (c : ClientSt Conn ReflC Sd Md Msg Stub Err) (serviceName methodName : String) :
    ClientSt Conn ReflC Sd Md Msg Stub Err :=
  if c.err.isSome then c
  else
    let c1 := resolveServiceS env c serviceName
    let c2 := findMethodByNameS env c1 methodName
    { c2 with
        inputMessage := env.newMessage (env.getInputType c2.methodDescriptor),
        outputMessage := env.newMessage (env.getOutputType c2.methodDescriptor) }

/-- Client.unmarshalInputMessage: decodes the JSON body into the input
message (the Go receiver is updated in place). -/
def unmarshalInputMessageS (env : BEnv Conn ReflC Sd Md Typ Msg Stub Bytes Err Tgt Meta)
    (c : ClientSt Conn ReflC Sd Md Msg Stub Err) (b : Bytes) :
    ClientSt Conn ReflC Sd Md Msg Stub Err :=
  if c.err.isSome then c
  else
    let r := env.unmarshalJSON c.inputMessage b
    { c with err := r.2, inputMessage := r.1 }

/-- Client.newStub. -/
def newStubS (env : BEnv Conn ReflC Sd Md Typ Msg Stub Bytes Err Tgt Meta)
    (c : ClientSt Conn ReflC Sd Md Msg Stub Err) :
    ClientSt Conn ReflC Sd Md Msg Stub Err :=
  if c.err.isSome then c
  else { c with stub := env.mkStub c.clientConn }

/-- Client.invokeRPC: builds the stub, performs the unary call, assigns
both the output message and the error. -/
def invokeRPCS (env : BEnv Conn ReflC Sd Md Typ Msg Stub Bytes Err Tgt Meta)
    (c : ClientSt Conn ReflC Sd Md Msg Stub Err) (md : Meta) :
    ClientSt Conn ReflC Sd Md Msg Stub Err :=
  let c1 := newStubS env c
  if c1.err.isSome then c1
  else
    let r := env.stubInvokeRPC c1.stub c1.methodDescriptor c1.inputMessage md
    { c1 with err := r.2, outputMessage := r.1 }

/-- Client.marshalOutputMessage (client.go:112): returns nil when the
sticky error is set; otherwise it marshals c.InputMessage (client.go:116)
and returns those bytes together with the updated state. -/
def marshalOutputMessageS (env : BEnv Conn ReflC Sd Md Typ Msg Stub Bytes Err Tgt Meta)
    (c : ClientSt Conn ReflC Sd Md Msg Stub Err) :
    ClientSt Conn ReflC Sd Md Msg Stub Err × Option Bytes :=
  if c.err.isSome then (c, none)
  else
    let r := env.marshalJSON c.inputMessage
    ({ c with err := r.2 }, r.1)

/-- Client.Call (client.go:145): loadDescriptors, unmarshalInputMessage,
invokeRPC, marshalOutputMessage, returning (response, c.err). -/
def Call (env : BEnv Conn ReflC Sd Md Typ Msg Stub Bytes Err Tgt Meta)
    (c : ClientSt Conn ReflC Sd Md Msg Stub Err)
    (serviceName methodName : String) (b : Bytes) (md : Meta) :
    ClientSt Conn ReflC Sd Md Msg Stub Err × Option Bytes × Option Err :=
  let c1 := loadDescriptorsS env c serviceName methodName
  let c2 := unmarshalInputMessageS env c1 b
  let c3 := invokeRPCS env c2 md
  let r := marshalOutputMessageS env c3
  (r.1, r.2, r.1.err)

/-- A concrete environment on small types for evaluating the pipeline:
message states are naturals, JSON decoding yields message 1, the RPC
invocation yields output message 2, and marshalling message m yields the
byte value m.  Every stage succeeds. -/
def envA : BEnv Unit Unit Unit Unit Unit Nat Unit Nat Nat Unit Unit where
  newClientConn := fun _ => ((), none)
  close := fun _ => none
  mkReflectionClient := fun _ => ()
  reflResolveService := fun _ _ => ((), none)
  findMethodByName := fun _ _ => ((), none)
  getInputType := fun _ => ()
  getOutputType := fun _ => ()
  newMessage := fun _ => 0
  unmarshalJSON := fun _ _ => (1, none)
  marshalJSON := fun m => (some m, none)
  mkStub := fun _ => ()
  stubInvokeRPC := fun _ _ _ _ => (2, none)
  emptyConn := ()
  emptyReflC := ()
  emptySd := ()
  emptyMd := ()
  emptyMsg := 0
  emptyStub := ()

/-- envA with a failing dial: newClientConn reports error 9. -/
def envB : BEnv Unit Unit Unit Unit Unit Nat Unit Nat Nat Unit Unit :=
  { envA with newClientConn := fun _ => ((), some 9) }

/- Association-list lemmas (Go map laws for the model). -/

theorem alookup_aupsert_self (k : String) (v : α) (l : List (String × α)) :
    alookup k (aupsert k v l) = some v := by
  induction l with
  | nil => simp [alookup, aupsert]
  | cons p rest ih =>
    obtain ⟨k1, v1⟩ := p
    by_cases h : k1 = k
    · simp [aupsert, alookup, h]
    · simp [aupsert, alookup, h, ih]

theorem aupsert_eq_self {k : String} {v : α} {l : List (String × α)}
    (h : alookup k l = some v) : aupsert k v l = l := by
  induction l with
  | nil => simp [alookup] at h
  | cons p rest ih =>
    obtain ⟨k1, v1⟩ := p
    by_cases hk : k1 = k
    · simp only [alookup, if_pos hk] at h
      cases h
      simp [aupsert, hk]
    · simp only [alookup, if_neg hk] at h
      simp [aupsert, hk, ih h]

theorem alookup_aerase_self (k : String) (l : List (String × α)) :
    alookup k (aerase k l) = none := by
  induction l with
  | nil => simp [alookup, aerase]
  | cons p rest ih =>
    obtain ⟨k1, v1⟩ := p
    by_cases h : k1 = k
    · simp [aerase, h, ih]
    · simp [aerase, alookup, h, ih]

theorem aupsert_ne_nil (k : String) (v : α) (l : List (String × α)) :
    aupsert k v l ≠ [] := by
  cases l with
  | nil => simp [aupsert]
  | cons p rest =>
    obtain ⟨k1, v1⟩ := p
    by_cases h : k1 = k <;> simp [aupsert, h]

theorem alookup_ne_nil {k : String} {v : α} {l : List (String × α)}
    (h : alookup k l = some v) : l ≠ [] := by
  cases l with
  | nil => simp [alookup] at h
  | cons p rest => simp

theorem alookup_mem {k : String} {v : α} {l : List (String × α)}
    (h : alookup k l = some v) : (k, v) ∈ l := by
  induction l with
  | nil => simp [alookup] at h
  | cons p rest ih =>
    obtain ⟨k1, v1⟩ := p
    by_cases hk : k1 = k
    · simp only [alookup, if_pos hk] at h
      cases h
      subst hk
      exact List.mem_cons_self _ _
    · simp only [alookup, if_neg hk] at h
      exact List.mem_cons_of_mem _ (ih h)

theorem mem_aupsert {p : String × α} {k : String} {v : α}
    {l : List (String × α)} (h : p ∈ aupsert k v l) : p ∈ l ∨ p = (k, v) := by
  induction l with
  | nil =>
    simp [aupsert] at h
    exact Or.inr h
  | cons q rest ih =>
    obtain ⟨k1, v1⟩ := q
    by_cases hk : k1 = k
    · simp only [aupsert, if_pos hk] at h
      rcases List.mem_cons.mp h with h1 | h1
      · exact Or.inr h1
      · exact Or.inl (List.mem_cons_of_mem _ h1)
    · simp only [aupsert, if_neg hk] at h
      rcases List.mem_cons.mp h with h1 | h1
      · exact Or.inl (h1 ▸ List.mem_cons_self _ _)
      · rcases ih h1 with h2 | h2
        · exact Or.inl (List.mem_cons_of_mem _ h2)
        · exact Or.inr h2

theorem mem_aerase {p : String × α} {k : String} {l : List (String × α)}
    (h : p ∈ aerase k l) : p ∈ l ∧ p.1 ≠ k := by
  induction l with
  | nil => simp [aerase] at h
  | cons q rest ih =>
    obtain ⟨k1, v1⟩ := q
    by_cases hk : k1 = k
    · simp only [aerase, if_pos hk] at h
      obtain ⟨h1, h2⟩ := ih h
      exact ⟨List.mem_cons_of_mem _ h1, h2⟩
    · simp only [aerase, if_neg hk] at h
      rcases List.mem_cons.mp h with h1 | h1
      · subst h1
        exact ⟨List.mem_cons_self _ _, hk⟩
      · obtain ⟨h2, h3⟩ := ih h1
        exact ⟨List.mem_cons_of_mem _ h2, h3⟩

theorem removeAddr_eq_filter (u : Url) (l : List Url) :
    removeAddr u l = l.filter (fun e => decide (e ≠ u)) := by
  induction l with
  | nil => simp [removeAddr]
  | cons e rest ih =>
    by_cases h : e = u
    · simp [removeAddr, h, List.filter, ih]
    · simp [removeAddr, h, List.filter, ih]

theorem removeAddr_of_not_mem {u : Url} {l : List Url} (h : u ∉ l) :
    removeAddr u l = l := by
  induction l with
  | nil => simp [removeAddr]
  | cons e rest ih =>
    rw [List.mem_cons] at h
    push_neg at h
    obtain ⟨h1, h2⟩ := h
    rw [removeAddr, if_neg (fun he => h1 he.symm), ih h2]

theorem not_mem_removeAddr (u : Url) (l : List Url) :
    u ∉ removeAddr u l := by
  induction l with
  | nil => simp [removeAddr]
  | cons e rest ih =>
    by_cases h : e = u
    · simpa [removeAddr, h] using ih
    · simp only [removeAddr, if_neg h, List.mem_cons]
      rintro (h1 | h1)
      · exact h h1.symm
      · exact ih h1

theorem removeAddr_idem (u : Url) (l : List Url) :
    removeAddr u (removeAddr u l) = removeAddr u l :=
  removeAddr_of_not_mem (not_mem_removeAddr u l)

/- Sticky-error lemmas for the dynamic client pipeline. -/

theorem connect_err_id {env : BEnv Conn ReflC Sd Md Typ Msg Stub Bytes Err Tgt Meta}
    {c : ClientSt Conn ReflC Sd Md Msg Stub Err} {e : Err} (h : c.err = some e)
    (t : Tgt) : Connect env c t = c := by
  simp [Connect, h]

theorem resolveService_err_id {env : BEnv Conn ReflC Sd Md Typ Msg Stub Bytes Err Tgt Meta}
    {c : ClientSt Conn ReflC Sd Md Msg Stub Err} {e : Err} (h : c.err = some e)
    (sn : String) : resolveServiceS env c sn = c := by
  simp [resolveServiceS, newReflectionClientS, h]

theorem findMethodByName_err_id {env : BEnv Conn ReflC Sd Md Typ Msg Stub Bytes Err Tgt Meta}
    {c : ClientSt Conn ReflC Sd Md Msg Stub Err} {e : Err} (h : c.err = some e)
    (mn : String) : findMethodByNameS env c mn = c := by
  simp [findMethodByNameS, h]

theorem loadDescriptors_err_id {env : BEnv Conn ReflC Sd Md Typ Msg Stub Bytes Err Tgt Meta}
    {c : ClientSt Conn ReflC Sd Md Msg Stub Err} {e : Err} (h : c.err = some e)
    (sn mn : String) : loadDescriptorsS env c sn mn = c := by
  simp [loadDescriptorsS, h]

theorem unmarshalInputMessage_err_id {env : BEnv Conn ReflC Sd Md Typ Msg Stub Bytes Err Tgt Meta}
    {c : ClientSt Conn ReflC Sd Md Msg Stub Err} {e : Err} (h : c.err = some e)
    (b : Bytes) : unmarshalInputMessageS env c b = c := by
  simp [unmarshalInputMessageS, h]

theorem invokeRPC_err_id {env : BEnv Conn ReflC Sd Md Typ Msg Stub Bytes Err Tgt Meta}
    {c : ClientSt Conn ReflC Sd Md Msg Stub Err} {e : Err} (h : c.err = some e)
    (md : Meta) : invokeRPCS env c md = c := by
  simp [invokeRPCS, newStubS, h]

theorem marshalOutputMessage_err_id {env : BEnv Conn ReflC Sd Md Typ Msg Stub Bytes Err Tgt Meta}
    {c : ClientSt Conn ReflC Sd Md Msg Stub Err} {e : Err} (h : c.err = some e) :
    marshalOutputMessageS env c = (c, none) := by
  simp [marshalOutputMessageS, h]

theorem call_err {env : BEnv Conn ReflC Sd Md Typ Msg Stub Bytes Err Tgt Meta}
    {c : ClientSt Conn ReflC Sd Md Msg Stub Err} {e : Err} (h : c.err = some e)
    (sn mn : String) (b : Bytes) (md : Meta) :
    Call env c sn mn b md = (c, none, some e) := by
  simp only [Call, loadDescriptors_err_id h, unmarshalInputMessage_err_id h,
    invokeRPC_err_id h, marshalOutputMessage_err_id h]
  simp [h]

/- RemoveRecord lemmas. -/

theorem removeRecord_unknown_service {m : RecordsMap} {s : String}
    (v : String) (u : Url) (hm : alookup s m = none) :
    RemoveRecord m s v u = m := by
  simp [RemoveRecord, hm]

theorem removeRecord_unknown_version {m : RecordsMap} {s v : String}
    {vs : VersionsMap} (u : Url) (hm : alookup s m = some vs)
    (hv : alookup v vs = none) : RemoveRecord m s v u = m := by
  simp [RemoveRecord, hm, hv]

theorem removeRecord_entriesAt (m : RecordsMap) (s v : String) (u : Url) :
    entriesAt (RemoveRecord m s v u) s v = removeAddr u (entriesAt m s v) := by
  cases hm : alookup s m with
  | none =>
    simp [removeRecord_unknown_service v u hm, entriesAt, versionsAt, hm,
      removeAddr, alookup]
  | some vs =>
    cases hv : alookup v vs with
    | none =>
      simp [removeRecord_unknown_version u hm hv, entriesAt, versionsAt,
        hm, hv, removeAddr]
    | some es =>
      have hEm : entriesAt m s v = es := by simp [entriesAt, versionsAt, hm, hv]
      rw [hEm]
      by_cases hne : removeAddr u es = []
      · rw [hne]
        simp only [RemoveRecord, hm, hv, hne, if_pos rfl]
        by_cases hl : (aerase v (aupsert v ([] : List Url) vs)).length = 0
        · simp [hl, entriesAt, versionsAt, alookup_aerase_self, alookup]
        · simp [hl, entriesAt, versionsAt, alookup_aupsert_self,
            alookup_aerase_self]
      · have h2 : (aupsert v (removeAddr u es) vs).length ≠ 0 := by
          simpa [List.length_eq_zero] using aupsert_ne_nil v (removeAddr u es) vs
        simp [RemoveRecord, hm, hv, hne, h2, entriesAt, versionsAt,
          alookup_aupsert_self]

theorem removeRecord_noop_absent {m : RecordsMap} {s v : String} {u : Url}
    {vs : VersionsMap} {es : List Url} (hm : alookup s m = some vs)
    (hv : alookup v vs = some es) (hes : es ≠ []) (hu : u ∉ es) :
    RemoveRecord m s v u = m := by
  have hne : removeAddr u es = es := removeAddr_of_not_mem hu
  have h1 : aupsert v es vs = vs := aupsert_eq_self hv
  have h2 : aupsert s vs m = m := aupsert_eq_self hm
  have h3 : vs.length ≠ 0 := by
    simpa [List.length_eq_zero] using alookup_ne_nil hv
  simp [RemoveRecord, hm, hv, hne, hes, h1, h2, h3]

theorem removeRecord_prunes_version {m : RecordsMap} {s v : String} {u : Url}
    {vs : VersionsMap} {es : List Url} (hm : alookup s m = some vs)
    (hv : alookup v vs = some es) (hall : removeAddr u es = []) :
    alookup v (versionsAt (RemoveRecord m s v u) s) = none := by
  simp only [RemoveRecord, hm, hv, hall, if_pos rfl]
  by_cases hl : (aerase v (aupsert v ([] : List Url) vs)).length = 0
  · simp [hl, versionsAt, alookup_aerase_self, alookup]
  · simp [hl, versionsAt, alookup_aupsert_self, alookup_aerase_self]

theorem removeRecord_prunes_service {m : RecordsMap} {s v : String} {u : Url}
    {es : List Url} (hm : alookup s m = some [(v, es)])
    (hall : removeAddr u es = []) :
    alookup s (RemoveRecord m s v u) = none := by
  have hv : alookup v [(v, es)] = some es := by simp [alookup]
  simp [RemoveRecord, hm, hv, hall, aupsert, aerase, alookup_aerase_self]

theorem removeRecord_idem (m : RecordsMap) (s v : String) (u : Url) :
    RemoveRecord (RemoveRecord m s v u) s v u = RemoveRecord m s v u := by
  cases hm : alookup s m with
  | none =>
    rw [removeRecord_unknown_service v u hm, removeRecord_unknown_service v u hm]
  | some vs =>
    cases hv : alookup v vs with
    | none =>
      rw [removeRecord_unknown_version u hm hv,
        removeRecord_unknown_version u hm hv]
    | some es =>
      by_cases hne : removeAddr u es = []
      · have hR : RemoveRecord m s v u =
            if (aerase v (aupsert v ([] : List Url) vs)).length = 0
            then aerase s (aupsert s (aerase v (aupsert v ([] : List Url) vs)) m)
            else aupsert s (aerase v (aupsert v ([] : List Url) vs)) m := by
          simp [RemoveRecord, hm, hv, hne]
        by_cases hl : (aerase v (aupsert v ([] : List Url) vs)).length = 0
        · rw [hR, if_pos hl]
          exact removeRecord_unknown_service v u (alookup_aerase_self s _)
        · rw [hR, if_neg hl]
          exact removeRecord_unknown_version u (alookup_aupsert_self s _ m)
            (alookup_aerase_self v _)
      · have h2 : (aupsert v (removeAddr u es) vs).length ≠ 0 := by
          simpa [List.length_eq_zero] using aupsert_ne_nil v (removeAddr u es) vs
        have hR : RemoveRecord m s v u =
            aupsert s (aupsert v (removeAddr u es) vs) m := by
          simp [RemoveRecord, hm, hv, hne, h2]
        rw [hR]
        have l1 : alookup s (aupsert s (aupsert v (removeAddr u es) vs) m)
            = some (aupsert v (removeAddr u es) vs) := alookup_aupsert_self _ _ _
        have l2 : alookup v (aupsert v (removeAddr u es) vs)
            = some (removeAddr u es) := alookup_aupsert_self _ _ _
        have l3 : removeAddr u (removeAddr u es) = removeAddr u es :=
          removeAddr_idem u es
        have l4 := aupsert_eq_self l2
        have l5 := aupsert_eq_self l1
        simp [RemoveRecord, l1, l2, l3, l4, l5, hne, h2]

/-- Claim C7: RemoveRecord removes every entry equal (by canonical string)
to the address from the (service, version) list; it is a no-op when the
service or version is unknown or the address absent; it prunes the version
entry when the list becomes empty and the service entry when no versions
remain; and it is idempotent. -/
theorem c7_removeRecord_spec (m : RecordsMap) (s v : String) (u : Url) :
    (entriesAt (RemoveRecord m s v u) s v =
      (entriesAt m s v).filter (fun e => decide (e ≠ u))) ∧
    (alookup s m = none → RemoveRecord m s v u = m) ∧
    (∀ vs, alookup s m = some vs → alookup v vs = none →
      RemoveRecord m s v u = m) ∧
    (∀ vs es, alookup s m = some vs → alookup v vs = some es → es ≠ [] →
      u ∉ es → RemoveRecord m s v u = m) ∧
    (∀ vs es, alookup s m = some vs → alookup v vs = some es →
      removeAddr u es = [] →
      alookup v (versionsAt (RemoveRecord m s v u) s) = none) ∧
    (∀ es, alookup s m = some [(v, es)] → removeAddr u es = [] →
      alookup s (RemoveRecord m s v u) = none) ∧
    RemoveRecord (RemoveRecord m s v u) s v u = RemoveRecord m s v u := by
  refine ⟨?_, ?_, ?_, ?_, ?_, ?_, removeRecord_idem m s v u⟩
  · rw [removeRecord_entriesAt, removeAddr_eq_filter]
  · intro hm
    exact removeRecord_unknown_service v u hm
  · intro vs hm hv
    exact removeRecord_unknown_version u hm hv
  · intro vs es hm hv hes hu
    exact removeRecord_noop_absent hm hv hes hu
  · intro vs es hm hv hall
    exact removeRecord_prunes_version hm hv hall
  · intro es hm hall
    exact removeRecord_prunes_service hm hall

/-- Witness for C7: the no-op and pruning cases evaluated on concrete
registries. -/
theorem c7_removeRecord_spec_witness :
    RemoveRecord [("s", [("v", ["a", "b"]), ("w", ["c"])])] "z" "v" "a"
      = [("s", [("v", ["a", "b"]), ("w", ["c"])])] ∧
    RemoveRecord [("s", [("v", ["a", "b"]), ("w", ["c"])])] "s" "v" "q"
      = [("s", [("v", ["a", "b"]), ("w", ["c"])])] ∧
    alookup "w" (versionsAt
      (RemoveRecord [("s", [("v", ["a", "b"]), ("w", ["c"])])] "s" "w" "c") "s")
      = none ∧
    alookup "t" (RemoveRecord [("t", [("x", ["d"])])] "t" "x" "d") = none :=
  ⟨(c7_removeRecord_spec [("s", [("v", ["a", "b"]), ("w", ["c"])])]
      "z" "v" "a").2.1 (by decide),
   (c7_removeRecord_spec [("s", [("v", ["a", "b"]), ("w", ["c"])])]
      "s" "v" "q").2.2.2.1 [("v", ["a", "b"]), ("w", ["c"])] ["a", "b"]
      (by decide) (by decide) (by decide) (by decide),
   (c7_removeRecord_spec [("s", [("v", ["a", "b"]), ("w", ["c"])])]
      "s" "w" "c").2.2.2.2.1 [("v", ["a", "b"]), ("w", ["c"])] ["c"]
      (by decide) (by decide) (by decide),
   (c7_removeRecord_spec [("t", [("x", ["d"])])] "t" "x" "d").2.2.2.2.2.1
      ["d"] (by decide) (by decide)⟩

/- Preservation of the pruning invariant. -/

theorem wf_mut_branch {m : RecordsMap} {s : String} (h : PrunedWF m)
    (vs2 : VersionsMap) (hq : ∀ q ∈ vs2, q.2 ≠ []) :
    PrunedWF (if vs2.length = 0 then aerase s (aupsert s vs2 m)
              else aupsert s vs2 m) := by
  by_cases hl : vs2.length = 0
  · rw [if_pos hl]
    intro p hp
    obtain ⟨hp1, hp2⟩ := mem_aerase hp
    rcases mem_aupsert hp1 with h1 | h1
    · exact h p h1
    · exact absurd (congrArg Prod.fst h1) hp2
  · rw [if_neg hl]
    intro p hp
    rcases mem_aupsert hp with h1 | h1
    · exact h p h1
    · subst h1
      refine ⟨?_, hq⟩
      intro hnil
      have hnil2 : vs2 = [] := hnil
      exact hl (by simp [hnil2])

theorem setRecord_preserves_wf {m : RecordsMap} {s v : String} {u : Url}
    (h : PrunedWF m) : PrunedWF (SetRecord m s v u).1 := by
  intro p hp
  simp only [SetRecord] at hp
  rcases mem_aupsert hp with h1 | h1
  · exact h p h1
  · subst h1
    refine ⟨aupsert_ne_nil _ _ _, ?_⟩
    intro q hq
    rcases mem_aupsert hq with h2 | h2
    · cases hm : alookup s m with
      | none =>
        rw [hm] at h2
        simp at h2
      | some vs0 =>
        rw [hm] at h2
        exact (h _ (alookup_mem hm)).2 q h2
    · subst h2
      simp

theorem removeRecord_preserves_wf {m : RecordsMap} {s v : String} {u : Url}
    (h : PrunedWF m) : PrunedWF (RemoveRecord m s v u) := by
  cases hm : alookup s m with
  | none =>
    rw [removeRecord_unknown_service v u hm]
    exact h
  | some vs =>
    cases hv : alookup v vs with
    | none =>
      rw [removeRecord_unknown_version u hm hv]
      exact h
    | some es =>
      have hvs : (s, vs) ∈ m := alookup_mem hm
      have key : ∀ q ∈ (if removeAddr u es = []
          then aerase v (aupsert v (removeAddr u es) vs)
          else aupsert v (removeAddr u es) vs), q.2 ≠ [] := by
        by_cases hne : removeAddr u es = []
        · rw [if_pos hne]
          intro q hq
          obtain ⟨hq1, hq2⟩ := mem_aerase hq
          rcases mem_aupsert hq1 with h1 | h1
          · exact (h _ hvs).2 q h1
          · exact absurd (congrArg Prod.fst h1) hq2
        · rw [if_neg hne]
          intro q hq
          rcases mem_aupsert hq with h1 | h1
          · exact (h _ hvs).2 q h1
          · rw [h1]
            exact hne
      have hgoal := wf_mut_branch (s := s) h _ key
      simpa [RemoveRecord, hm, hv] using hgoal

/-- Claim C8: every registry reachable from NewRecords through SetRecord,
RemoveRecord and ClearRecords satisfies the pruning invariant: every
version present maps to a non-empty address list, and every service
present has at least one version. -/
theorem c8_reachable_pruned (m : RecordsMap) (h : Reachable m) :
    PrunedWF m := by
  induction h with
  | init =>
    intro p hp
    simp [NewRecords] at hp
  | set s v u h ih => exact setRecord_preserves_wf ih
  | remove s v u h ih => exact removeRecord_preserves_wf ih
  | clear h ih =>
    intro p hp
    simp [ClearRecords] at hp

/-- Witness for C8: a concrete reachable registry satisfies the
invariant. -/
theorem c8_reachable_pruned_witness :
    PrunedWF (SetRecord NewRecords "s" "v" "a").1 :=
  c8_reachable_pruned _ (Reachable.set "s" "v" "a" Reachable.init)

/- Static resolver loading lemmas. -/

theorem loadVersions_error_of_mem {ε : Type} (pu : String → Except ε Url)
    (r : RecordsMap) (svc : String) (l : List (String × String))
    (h : ∃ q ∈ l, ∃ e, pu q.2 = Except.error e) :
    ∃ e, loadVersions pu r svc l = Except.error e := by
  induction l generalizing r with
  | nil => simp at h
  | cons q0 rest ih =>
    obtain ⟨ver, raw⟩ := q0
    obtain ⟨q, hq, e, he⟩ := h
    rcases List.mem_cons.mp hq with h1 | h1
    · subst h1
      have he2 : pu raw = Except.error e := he
      exact ⟨e, by simp [loadVersions, he2]⟩
    · cases hpu : pu raw with
      | error e1 => exact ⟨e1, by simp [loadVersions, hpu]⟩
      | ok u =>
        obtain ⟨e2, h2⟩ := ih (SetRecord r svc ver u).1 ⟨q, h1, e, he⟩
        exact ⟨e2, by simp [loadVersions, hpu, h2]⟩

theorem loadServices_error_of_mem {ε : Type} (pu : String → Except ε Url)
    (r : RecordsMap) (l : List (String × List (String × String)))
    (h : ∃ p ∈ l, ∃ q ∈ p.2, ∃ e, pu q.2 = Except.error e) :
    ∃ e, loadServices pu r l = Except.error e := by
  induction l generalizing r with
  | nil => simp at h
  | cons p0 rest ih =>
    obtain ⟨svc, vers⟩ := p0
    obtain ⟨p, hp, hq⟩ := h
    rcases List.mem_cons.mp hp with h1 | h1
    · subst h1
      obtain ⟨e2, h2⟩ := loadVersions_error_of_mem pu r svc vers hq
      exact ⟨e2, by simp [loadServices, h2]⟩
    · cases hlv : loadVersions pu r svc vers with
      | error e1 => exact ⟨e1, by simp [loadServices, hlv]⟩
      | ok r1 =>
        obtain ⟨e2, h2⟩ := ih r1 ⟨p, h1, hq⟩
        exact ⟨e2, by simp [loadServices, hlv, h2]⟩

/-- Claim C9: a failed open or decode propagates out of NewRecordsFromYAML
unchanged; any address that fails to parse makes the whole load fail (no
partial registry); and NewStatic then falls back to the empty registry, on
which every Resolve call returns a ServiceUnresolvable error. -/
theorem c9_static_fail_empty :
    (∀ (ε : Type) (e : ε) (pu : String → Except ε Url),
      NewRecordsFromYAML (Except.error e) pu = Except.error e) ∧
    (∀ (ε : Type) (raw : List (String × List (String × String)))
        (pu : String → Except ε Url),
      (∃ p ∈ raw, ∃ q ∈ p.2, ∃ e, pu q.2 = Except.error e) →
      ∃ e, NewRecordsFromYAML (Except.ok raw) pu = Except.error e) ∧
    (∀ (ε : Type) (loaded : Except ε RecordsMap) (e : ε),
      loaded = Except.error e →
      NewStaticRecords loaded = NewRecords ∧
      ∀ s v, Resolve (NewStaticRecords loaded) s v
        = (none, some (serviceUnresolvableErr s))) := by
  refine ⟨?_, ?_, ?_⟩
  · intro ε e pu
    rfl
  · intro ε raw pu h
    exact loadServices_error_of_mem pu NewRecords raw h
  · intro ε loaded e hl
    subst hl
    exact ⟨rfl, fun s v => rfl⟩

/-- Witness for C9: a concrete failed decode and a concrete failed address
parse both produce errors, and the fallback registry resolves nothing. -/
theorem c9_static_fail_empty_witness :
    NewRecordsFromYAML (Except.error "io")
      (fun r => (Except.ok r : Except String Url)) = Except.error "io" ∧
    (∃ e, NewRecordsFromYAML (Except.ok [("a", [("v1", "bad")])])
      (fun _ => (Except.error "parse" : Except String Url)) = Except.error e) ∧
    NewStaticRecords (Except.error "io" : Except String RecordsMap)
      = NewRecords ∧
    Resolve (NewStaticRecords (Except.error "io" : Except String RecordsMap))
      "a" "v1" = (none, some (serviceUnresolvableErr "a")) :=
  ⟨c9_static_fail_empty.1 String "io" (fun r => Except.ok r),
   c9_static_fail_empty.2.1 String [("a", [("v1", "bad")])]
     (fun _ => Except.error "parse")
     ⟨("a", [("v1", "bad")]), by simp, ("v1", "bad"), by simp, "parse", rfl⟩,
   (c9_static_fail_empty.2.2 String (Except.error "io") "io" rfl).1,
   (c9_static_fail_empty.2.2 String (Except.error "io") "io" rfl).2 "a" "v1"⟩

/-- Claim C1: with every stage succeeding, Call is claimed to return the
JSON encoding of the output message produced by the RPC invocation.  The
source instead marshals c.InputMessage (client.go:116): under envA the
decoded input message is 1 and the RPC output message is 2, yet Call
returns bytes `some 1` (the input message's encoding) while the output
message 2 would encode to `some 2`. -/
theorem c1_call_marshals_input_message :
    (Call envA (NewClient envA) "svc" "method" 0 ()).2.1 = some 1 ∧
    (Call envA (NewClient envA) "svc" "method" 0 ()).2.2 = none ∧
    (Call envA (NewClient envA) "svc" "method" 0 ()).1.inputMessage = 1 ∧
    (Call envA (NewClient envA) "svc" "method" 0 ()).1.outputMessage = 2 ∧
    (envA.marshalJSON
      (Call envA (NewClient envA) "svc" "method" 0 ()).1.outputMessage).1 = some 2 ∧
    (some 1 : Option Nat) ≠ some 2 :=
  ⟨rfl, rfl, rfl, rfl, rfl, by decide⟩

/-- Claim C2: CloseConn is claimed to release the connection even when a
prior stage set the sticky error.  The source (client.go:57) returns
immediately in that case: for every environment (in particular whatever
`close` would do), CloseConn leaves the client unchanged and never consults
the close operation, so the connection is not released on error paths. -/
theorem c2_closeConn_skips_close_on_error
    (env : BEnv Conn ReflC Sd Md Typ Msg Stub Bytes Err Tgt Meta)
    (c : ClientSt Conn ReflC Sd Md Msg Stub Err) (e : Err)
    (h : c.err = some e) : CloseConn env c = c := by
  simp [CloseConn, h]

/-- Witness for C2: a concrete client with the sticky error set is returned
unchanged by CloseConn. -/
theorem c2_closeConn_skips_close_on_error_witness :
    CloseConn envA { NewClient envA with err := some 7 } =
      { NewClient envA with err := some 7 } :=
  c2_closeConn_skips_close_on_error envA { NewClient envA with err := some 7 } 7 rfl

/-- Claim C3: once the sticky error is set, every subsequent stage
(Connect, resolveService, findMethodByName, unmarshalInputMessage,
invokeRPC, marshalOutputMessage) returns immediately and changes nothing,
marshalOutputMessage returns nil bytes, and Call returns the already-set
error unchanged; moreover a dial failure is the error reported after the
whole Connect/Call/CloseConn sequence, i.e. the first error is never
overwritten. -/
theorem c3_sticky_error_pipeline
    (env : BEnv Conn ReflC Sd Md Typ Msg Stub Bytes Err Tgt Meta)
    (c : ClientSt Conn ReflC Sd Md Msg Stub Err)
    (t : Tgt) (sn mn : String) (b : Bytes) (md : Meta) :
    (∀ e, c.err = some e →
      Connect env c t = c ∧
      resolveServiceS env c sn = c ∧
      findMethodByNameS env c mn = c ∧
      loadDescriptorsS env c sn mn = c ∧
      unmarshalInputMessageS env c b = c ∧
      invokeRPCS env c md = c ∧
      marshalOutputMessageS env c = (c, none) ∧
      Call env c sn mn b md = (c, none, some e)) ∧
    (∀ e0, c.err = none → (env.newClientConn t).2 = some e0 →
      (CloseConn env (Call env (Connect env c t) sn mn b md).1).err = some e0) := by
  constructor
  · intro e h
    exact ⟨connect_err_id h t, resolveService_err_id h sn,
      findMethodByName_err_id h mn, loadDescriptors_err_id h sn mn,
      unmarshalInputMessage_err_id h b, invokeRPC_err_id h md,
      marshalOutputMessage_err_id h, call_err h sn mn b md⟩
  · intro e0 h0 hconn
    have h1 : (Connect env c t).err = some e0 := by
      simp [Connect, h0, hconn]
    rw [call_err h1 sn mn b md]
    simp [CloseConn, h1]

/-- Claim C4: GetRecord returns ServiceUnresolvable for an unknown service
or an unknown non-empty version of a known service, VersionNotSpecified for
an empty version when the service has more than one version,
VersionUndecidable when the resolved version has more than one address, and
the unique address with no error when it has exactly one. -/
theorem c4_getRecord_cases (m : RecordsMap) (s v : String) :
    (alookup s m = none →
      GetRecord m s v = (none, some (serviceUnresolvableErr s))) ∧
    (∀ vs, alookup s m = some vs → v ≠ "" → alookup v vs = none →
      GetRecord m s v = (none, some (versionNotFoundErr s v))) ∧
    (∀ vs, alookup s m = some vs → v = "" → 1 < vs.length →
      GetRecord m s v = (none, some (versionNotSpecifiedErr s))) ∧
    (∀ vs es, alookup s m = some vs → ResolvedEntries v vs es → 1 < es.length →
      GetRecord m s v = (none, some (versionUndecidableErr s))) ∧
    (∀ vs a, alookup s m = some vs → ResolvedEntries v vs [a] →
      GetRecord m s v = (some a, none)) := by
  refine ⟨?_, ?_, ?_, ?_, ?_⟩
  · intro h
    simp [GetRecord, h]
  · intro vs h hv hnone
    simp [GetRecord, h, hv, hnone]
  · intro vs h hv hlen
    subst hv
    rcases vs with _ | ⟨p, _ | ⟨q, rest⟩⟩
    · simp at hlen
    · simp at hlen
    · simp [GetRecord, h]
  · intro vs es h hres hlen
    rcases hres with ⟨hv, hlook⟩ | ⟨hv, w, hvs⟩
    · rcases es with _ | ⟨e, _ | ⟨f, r2⟩⟩
      · simp at hlen
      · simp at hlen
      · simp [GetRecord, h, hv, hlook]
    · subst hv
      subst hvs
      rcases es with _ | ⟨e, _ | ⟨f, r2⟩⟩
      · simp at hlen
      · simp at hlen
      · simp [GetRecord, h]
  · intro vs a h hres
    rcases hres with ⟨hv, hlook⟩ | ⟨hv, w, hvs⟩
    · simp [GetRecord, h, hv, hlook]
    · subst hv
      subst hvs
      simp [GetRecord, h]

/-- Witness for C4: the disambiguation cases evaluated on concrete
registries (the spec's scenario plus a two-address version). -/
theorem c4_getRecord_cases_witness :
    GetRecord [("a", [("v1", ["u1"]), ("v2", ["u2"])])] "c" ""
      = (none, some (serviceUnresolvableErr "c")) ∧
    GetRecord [("a", [("v1", ["u1"]), ("v2", ["u2"])])] "a" "v3"
      = (none, some (versionNotFoundErr "a" "v3")) ∧
    GetRecord [("a", [("v1", ["u1"]), ("v2", ["u2"])])] "a" ""
      = (none, some (versionNotSpecifiedErr "a")) ∧
    GetRecord [("b", [("v1", ["u1", "u2"])])] "b" "v1"
      = (none, some (versionUndecidableErr "b")) ∧
    GetRecord [("b", [("v1", ["u1"])])] "b" "" = (some "u1", none) :=
  ⟨(c4_getRecord_cases [("a", [("v1", ["u1"]), ("v2", ["u2"])])] "c" "").1
      (by decide),
   (c4_getRecord_cases [("a", [("v1", ["u1"]), ("v2", ["u2"])])] "a" "v3").2.1
      [("v1", ["u1"]), ("v2", ["u2"])] (by decide) (by decide) (by decide),
   (c4_getRecord_cases [("a", [("v1", ["u1"]), ("v2", ["u2"])])] "a" "").2.2.1
      [("v1", ["u1"]), ("v2", ["u2"])] (by decide) rfl (by decide),
   (c4_getRecord_cases [("b", [("v1", ["u1", "u2"])])] "b" "v1").2.2.2.1
      [("v1", ["u1", "u2"])] ["u1", "u2"] (by decide)
      (Or.inl ⟨by decide, by decide⟩) (by decide),
   (c4_getRecord_cases [("b", [("v1", ["u1"])])] "b" "").2.2.2.2
      [("v1", ["u1"])] "u1" (by decide) (Or.inr ⟨rfl, "v1", rfl⟩)⟩

/-- GetRecord always returns exactly one of an address or an error. -/
theorem getRecord_shape (m : RecordsMap) (s v : String) :
    (∃ a, GetRecord m s v = (some a, none)) ∨
    (∃ e, GetRecord m s v = (none, some e)) := by
  cases hm : alookup s m with
  | none => exact Or.inr ⟨serviceUnresolvableErr s, by simp [GetRecord, hm]⟩
  | some vs =>
    by_cases hv : v = ""
    · rcases vs with _ | ⟨⟨w, es⟩, _ | ⟨q, rest⟩⟩
      · exact Or.inr ⟨versionNotSpecifiedErr s, by simp [GetRecord, hm, hv]⟩
      · rcases es with _ | ⟨e, _ | ⟨f, r2⟩⟩
        · exact Or.inr ⟨versionUndecidableErr s, by simp [GetRecord, hm, hv]⟩
        · exact Or.inl ⟨e, by simp [GetRecord, hm, hv]⟩
        · exact Or.inr ⟨versionUndecidableErr s, by simp [GetRecord, hm, hv]⟩
      · exact Or.inr ⟨versionNotSpecifiedErr s, by simp [GetRecord, hm, hv]⟩
    · cases he : alookup v vs with
      | none => exact Or.inr ⟨versionNotFoundErr s v, by simp [GetRecord, hm, hv, he]⟩
      | some es =>
        rcases es with _ | ⟨e, _ | ⟨f, r2⟩⟩
        · exact Or.inr ⟨versionUndecidableErr s, by simp [GetRecord, hm, hv, he]⟩
        · exact Or.inl ⟨e, by simp [GetRecord, hm, hv, he]⟩
        · exact Or.inr ⟨versionUndecidableErr s, by simp [GetRecord, hm, hv, he]⟩

/-- Claim C10: GetRecord returns an address exactly when it returns no
error, and the same holds for Static.Resolve. -/
theorem c10_result_xor_error (m : RecordsMap) (s v : String) :
    ((GetRecord m s v).1.isSome ↔ (GetRecord m s v).2 = none) ∧
    ((Resolve m s v).1.isSome ↔ (Resolve m s v).2 = none) := by
  rcases getRecord_shape m s v with ⟨a, h⟩ | ⟨e, h⟩ <;> simp [Resolve, h]

/-- SetRecord appends the new address at the end of the (service, version)
entry list, creating the entries when absent. -/
theorem setRecord_entriesAt (m : RecordsMap) (s v : String) (u : Url) :
    entriesAt (SetRecord m s v u).1 s v = entriesAt m s v ++ [u] := by
  simp [SetRecord, entriesAt, versionsAt, alookup_aupsert_self]

/-- Claim C6: SetRecord always returns true and appends the address to the
end of the (service, version) list, creating the service and version
entries if absent; a second call with the same address appends it again
(no deduplication). -/
theorem c6_setRecord_appends (m : RecordsMap) (s v : String) (u : Url) :
    (SetRecord m s v u).2 = true ∧
    entriesAt (SetRecord m s v u).1 s v = entriesAt m s v ++ [u] ∧
    entriesAt (SetRecord (SetRecord m s v u).1 s v u).1 s v =
      entriesAt m s v ++ [u, u] := by
  refine ⟨rfl, setRecord_entriesAt m s v u, ?_⟩
  rw [setRecord_entriesAt, setRecord_entriesAt]
  simp

/-- Counterexample to claim C5 as stated: after a second SetRecord with the
same (service, version), GetRecord no longer returns the address just set;
it returns VersionUndecidable, because SetRecord appends without
deduplicating. -/
theorem c5_setRecord_getRecord_counterexample :
    GetRecord (SetRecord (SetRecord NewRecords "s" "v" "a1").1 "s" "v" "a2").1
        "s" "v" ≠ (some "a2", none) ∧
    GetRecord (SetRecord (SetRecord NewRecords "s" "v" "a1").1 "s" "v" "a2").1
        "s" "v" = (none, some (versionUndecidableErr "s")) := by
  constructor <;> decide

/-- Claim C5 amended: when the (service, version) pair has no addresses
before the call and, for the empty version, the service is absent,
SetRecord followed by GetRecord with the same service and version returns
exactly the address just set, with no error. -/
theorem c5_setRecord_getRecord_amended (m : RecordsMap) (s v : String) (a : Url)
    (h1 : entriesAt m s v = [])
    (h2 : v = "" → alookup s m = none) :
    GetRecord (SetRecord m s v a).1 s v = (some a, none) := by
  simp only [entriesAt, versionsAt] at h1
  by_cases hv : v = ""
  · have hm := h2 hv
    subst hv
    simp [SetRecord, GetRecord, hm, alookup_aupsert_self, aupsert, alookup]
  · simp [SetRecord, GetRecord, hv, h1, alookup_aupsert_self]

/-- Witness for the amended C5: setting a fresh (service, version) pair and
reading it back returns the new address. -/
theorem c5_setRecord_getRecord_amended_witness :
    entriesAt [("x", [("w", ["b"])])] "s" "v" = [] ∧
    GetRecord (SetRecord [("x", [("w", ["b"])])] "s" "v" "a").1 "s" "v"
      = (some "a", none) :=
  ⟨by decide,
   c5_setRecord_getRecord_amended [("x", [("w", ["b"])])] "s" "v" "a"
     (by decide) (fun h => absurd h (by decide))⟩

/-- Witness for C3: under envA a client with sticky error 5 passes through
Call unchanged, and under envB (whose dial fails with error 9) the whole
Connect/Call/CloseConn sequence reports error 9. -/
theorem c3_sticky_error_pipeline_witness :
    Call envA { NewClient envA with err := some 5 } "s" "m" 0 () =
      ({ NewClient envA with err := some 5 }, none, some 5) ∧
    (CloseConn envB
      (Call envB (Connect envB (NewClient envB) ()) "s" "m" 0 ()).1).err = some 9 :=
  ⟨((c3_sticky_error_pipeline envA { NewClient envA with err := some 5 }
      () "s" "m" 0 ()).1 5 rfl).2.2.2.2.2.2.2,
   (c3_sticky_error_pipeline envB (NewClient envB) () "s" "m" 0 ()).2 9 rfl rfl⟩

end Proxy
